import Mathlib

/-!
Verification development for the server-side caching and structured-item
storage subsystem of an Xtream-style IPTV web client.

The definitions below are a shallow embedding of:
- `src/app/lib/cache.server.ts` (response cache, TTL resolver, items store
  with pagination/search; rows carry a `stream_id` column), and
- `src/app/lib/cache.ts` (the variant items store without `stream_id`,
  used by the sync handler), and
- `src/app/routes/series.tsx` (the `api.items` route loader), and
- `src/handlers/xtream/sync.handler.ts` (`syncAllContentHandler`).

SQLite tables are modelled as Lean lists of row structures; each stateful
operation takes the table value and returns the updated one.  `Date.now()`
is an explicit `now : Nat` parameter (epoch milliseconds).  `ORDER BY name`
over TEXT columns (binary collation, i.e. codepoint order) is modelled by
`List.insertionSort` with lexicographic `String` order; SQL `LIKE` (which is
ASCII-case-insensitive in SQLite, with `%` and `_` wildcards) is modelled by
the explicit matcher `likeMatch`.
-/

/-- JavaScript `needle.isPrefixOf hay` on character lists (exact equality). -/
def isPrefixChars : List Char → List Char → Bool
  | [], _ => true
  | _ :: _, [] => false
  | a :: as, b :: bs => a == b && isPrefixChars as bs

/-- JavaScript `hay.includes(needle)`: literal case-sensitive substring test. -/
def containsChars (needle : List Char) : List Char → Bool
  | [] => isPrefixChars needle []
  | h :: t => isPrefixChars needle (h :: t) || containsChars needle t

/-- Model of `key.includes(sub)` from the TypeScript source, on `String`. -/
def strIncludes (hay needle : String) : Bool :=
  containsChars needle.toList hay.toList

/-- JavaScript `s.trim()`: strip whitespace from both ends (modelled over the
character list with `Char.isWhitespace`). -/
def jsTrim (s : String) : String :=
  String.mk
    (((s.toList.dropWhile Char.isWhitespace).reverse.dropWhile
        Char.isWhitespace).reverse)

/-- Lower-case an ASCII letter, the identity elsewhere (SQLite `LIKE` folding). -/
def asciiLower (c : Char) : Char :=
  if 'A' ≤ c ∧ c ≤ 'Z' then Char.ofNat (c.toNat + 32) else c

/-- SQLite `LIKE` character comparison: ASCII-case-insensitive equality. -/
def likeCharEq (a b : Char) : Bool :=
  asciiLower a == asciiLower b

/-- Does `f` accept some suffix of the list (the list itself included)? -/
def suffixAny (f : List Char → Bool) : List Char → Bool
  | [] => f []
  | h :: t => f (h :: t) || suffixAny f t

/-- SQLite `LIKE` pattern matching: `%` matches any sequence, `_` any single
character, all other characters match ASCII-case-insensitively. -/
def likeMatch : List Char → List Char → Bool
  | [], s => s.isEmpty
  | c :: ps, s =>
    if c = '%' then suffixAny (likeMatch ps) s
    else
      match s with
      | [] => false
      | d :: t => (if c = '_' then true else likeCharEq c d) && likeMatch ps t

/-- ASCII-case-insensitive prefix test (for relating `LIKE` to substring search). -/
def isPrefixCI : List Char → List Char → Bool
  | [], _ => true
  | _ :: _, [] => false
  | a :: as, b :: bs => likeCharEq a b && isPrefixCI as bs

/-- ASCII-case-insensitive substring test. -/
def containsCI (needle : List Char) : List Char → Bool
  | [] => isPrefixCI needle []
  | h :: t => isPrefixCI needle (h :: t) || containsCI needle t

/-- A pattern is wildcard-free when it mentions neither `%` nor `_`. -/
def noWildcard (p : List Char) : Bool :=
  p.all fun c => !(c == '%') && !(c == '_')

-- ===========================================================================
-- Cache configuration (`CACHE_TTL` in cache.server.ts)
-- ===========================================================================

/-- Constant `CACHE_TTL.CATEGORIES`: 24 hours in milliseconds. -/
def CACHE_TTL_CATEGORIES : Nat := 24 * 60 * 60 * 1000

/-- Constant `CACHE_TTL.STREAMS`: 12 hours in milliseconds. -/
def CACHE_TTL_STREAMS : Nat := 12 * 60 * 60 * 1000

/-- Constant `CACHE_TTL.SERIES`: 12 hours in milliseconds. -/
def CACHE_TTL_SERIES : Nat := 12 * 60 * 60 * 1000

/-- Constant `CACHE_TTL.SERIES_INFO`: 6 hours in milliseconds. -/
def CACHE_TTL_SERIES_INFO : Nat := 6 * 60 * 60 * 1000

/-- Function `getTTL` from cache.server.ts: priority-ordered substring dispatch on the key. -/
def getTTL (key : String) : Nat :=
  if strIncludes key "get_vod_categories" || strIncludes key "get_series_categories" then
    CACHE_TTL_CATEGORIES
  else if strIncludes key "get_series_info" then
    CACHE_TTL_SERIES_INFO
  else if strIncludes key "get_series" then
    CACHE_TTL_SERIES
  else
    CACHE_TTL_STREAMS

-- ===========================================================================
-- Response cache (`cache` table)
-- ===========================================================================

/-- A row of the `cache` table. -/
structure CacheEntry where
  key : String
  value : String
  expiresAt : Nat
  createdAt : Nat
  hitCount : Nat
  lastAccessed : Option Nat
  deriving Repr, DecidableEq

/-- Query `SELECT ... FROM cache WHERE key = ?` (`key` is the primary key). -/
def findCacheRow (store : List CacheEntry) (key : String) : Option CacheEntry :=
  store.find? fun e => e.key == key

/-- Function `getCache` from cache.server.ts: returns the value if present and not
expired; deletes the row and returns `none` when `now > expires_at`; bumps
`hit_count` and `last_accessed` on a valid hit.  Result: (returned value,
updated table). -/
def getCache (key : String) (now : Nat) (store : List CacheEntry) :
    Option String × List CacheEntry :=
  match findCacheRow store key with
  | none => (none, store)
  | some row =>
    if now > row.expiresAt then
      (none, store.filter fun e => !(e.key == key))
    else
      (some row.value,
        store.map fun e =>
          if e.key == key then
            { e with hitCount := e.hitCount + 1, lastAccessed := some now }
          else e)

/-- Function `clearExpiredCache`: `DELETE FROM cache WHERE expires_at < now`. -/
def clearExpiredCache (now : Nat) (store : List CacheEntry) : List CacheEntry :=
  store.filter fun e => !(e.expiresAt < now)

/-- Function `invalidateCachePattern`: `DELETE FROM cache WHERE key LIKE` a pattern wrapped in percent wildcards. -/
def invalidateCachePattern (pattern : String) (store : List CacheEntry) :
    List CacheEntry :=
  store.filter fun e =>
    !(likeMatch ('%' :: (pattern.toList ++ ['%'])) e.key.toList)

-- ===========================================================================
-- Items store (`items` table of cache.server.ts, rows carry `stream_id`)
-- ===========================================================================

/-- The `type` column: `CHECK(type IN ('vod', 'series'))`. -/
inductive ItemType where
  | vod
  | series
  deriving Repr, DecidableEq

instance : BEq ItemType := ⟨fun a b => decide (a = b)⟩

/-- The `CachedItem` interface of `types/cache.types.ts` (API row shape). -/
structure CachedItem where
  id : String
  stream_id : String
  type : ItemType
  name : String
  poster_url : Option String
  category_id : Option String
  deriving Repr, DecidableEq

/-- A stored row of the `items` table (adds the `updated_at` column). -/
structure ItemRow where
  id : String
  stream_id : String
  type : ItemType
  name : String
  poster_url : Option String
  category_id : Option String
  updated_at : Nat
  deriving Repr, DecidableEq

/-- JavaScript `x || null` on an optional string: the empty string is falsy. -/
def jsOrNull (o : Option String) : Option String :=
  match o with
  | some s => if s == "" then none else some s
  | none => none

/-- The row written by `storeItems` for one input item (`updated_at = now`). -/
def toRow (it : CachedItem) (now : Nat) : ItemRow :=
  { id := it.id, stream_id := it.stream_id, type := it.type, name := it.name
    poster_url := jsOrNull it.poster_url, category_id := jsOrNull it.category_id
    updated_at := now }

/-- Primary key of an `items` row. -/
def rowKey (r : ItemRow) : String × ItemType :=
  (r.id, r.type)

/-- Primary key of an input item. -/
def itemKey (it : CachedItem) : String × ItemType :=
  (it.id, it.type)

/-- The last item of a batch carrying a given `(id, type)` key — the write
that wins when a batch is upserted in order. -/
def lastWrite (items : List CachedItem) (k : String × ItemType) : Option CachedItem :=
  match items with
  | [] => none
  | it :: rest =>
    match lastWrite rest k with
    | some j => some j
    | none => if itemKey it = k then some it else none

/-- Statement `INSERT OR REPLACE INTO items ...` for one row: replace the row with the
same `(id, type)` primary key in place, or append a fresh row. -/
def upsertRow (store : List ItemRow) (r : ItemRow) : List ItemRow :=
  if store.any (fun x => rowKey x = rowKey r) then
    store.map fun x => if rowKey x = rowKey r then r else x
  else
    store ++ [r]

/-- Function `storeItems` from cache.server.ts: no-op on an empty batch, otherwise one
transaction of `INSERT OR REPLACE` statements in list order. -/
def storeItems (items : List CachedItem) (now : Nat) (store : List ItemRow) :
    List ItemRow :=
  if items.isEmpty then store
  else items.foldl (fun s it => upsertRow s (toRow it now)) store

/-- Statement `DELETE FROM items WHERE type = ?` (`clearItems`). -/
def clearItems (t : ItemType) (store : List ItemRow) : List ItemRow :=
  store.filter fun r => !(r.type == t)

/-- Query `SELECT ... FROM items WHERE id = ? AND type = ?` (single row). -/
def findItemRow (store : List ItemRow) (k : String × ItemType) : Option ItemRow :=
  store.find? fun r => rowKey r = k

/-- Projection of a stored row back to the `CachedItem` API shape (the column
list of every `SELECT` in cache.server.ts omits `updated_at`). -/
def rowToItem (r : ItemRow) : CachedItem :=
  { id := r.id, stream_id := r.stream_id, type := r.type, name := r.name
    poster_url := r.poster_url, category_id := r.category_id }

/-- Lexicographic codepoint comparison of character lists; models SQLite's
binary collation on TEXT columns (UTF-8 byte order equals codepoint order). -/
def charListLe : List Char → List Char → Bool
  | [], _ => true
  | _ :: _, [] => false
  | a :: as, b :: bs =>
    if a.toNat < b.toNat then true
    else if b.toNat < a.toNat then false
    else charListLe as bs

/-- Binary-collation `<=` on strings. -/
def strLeB (a b : String) : Bool :=
  charListLe a.toList b.toList

theorem charListLe_total (x y : List Char) :
    charListLe x y = true ∨ charListLe y x = true := by
  induction x generalizing y with
  | nil => exact Or.inl rfl
  | cons a as ih =>
    cases y with
    | nil => exact Or.inr rfl
    | cons b bs =>
      rcases Nat.lt_trichotomy a.toNat b.toNat with h | h | h
      · exact Or.inl (by simp [charListLe, h])
      · rcases ih bs with h' | h'
        · exact Or.inl (by simp [charListLe, h, h'])
        · exact Or.inr (by simp [charListLe, h, h'])
      · exact Or.inr (by simp [charListLe, h])

theorem charListLe_trans {x y z : List Char}
    (hxy : charListLe x y = true) (hyz : charListLe y z = true) :
    charListLe x z = true := by
  induction x generalizing y z with
  | nil => rfl
  | cons a as ih =>
    cases y with
    | nil => simp [charListLe] at hxy
    | cons b bs =>
      cases z with
      | nil => simp [charListLe] at hyz
      | cons c cs =>
        by_cases hab : a.toNat < b.toNat
        · by_cases hbc : b.toNat < c.toNat
          · have : a.toNat < c.toNat := Nat.lt_trans hab hbc
            simp [charListLe, this]
          · by_cases hcb : c.toNat < b.toNat
            · simp [charListLe, hbc, hcb] at hyz
            · have hbc' : b.toNat = c.toNat := Nat.le_antisymm (Nat.not_lt.mp hcb) (Nat.not_lt.mp hbc)
              have : a.toNat < c.toNat := hbc' ▸ hab
              simp [charListLe, this]
        · by_cases hba : b.toNat < a.toNat
          · simp [charListLe, hab, hba] at hxy
          · have hab' : a.toNat = b.toNat := Nat.le_antisymm (Nat.not_lt.mp hba) (Nat.not_lt.mp hab)
            simp [charListLe, hab, hba] at hxy
            by_cases hbc : b.toNat < c.toNat
            · have : a.toNat < c.toNat := hab' ▸ hbc
              simp [charListLe, this]
            · by_cases hcb : c.toNat < b.toNat
              · simp [charListLe, hbc, hcb] at hyz
              · have hbc' : b.toNat = c.toNat := Nat.le_antisymm (Nat.not_lt.mp hcb) (Nat.not_lt.mp hbc)
                have h1 : ¬ a.toNat < c.toNat := by omega
                have h2 : ¬ c.toNat < a.toNat := by omega
                simp [charListLe, hbc, hcb] at hyz
                simp [charListLe, h1, h2]
                exact ih hxy hyz

/-- The `ORDER BY name` comparison: binary (codepoint) order on TEXT. -/
def nameLe (a b : ItemRow) : Prop :=
  strLeB a.name b.name = true

instance : DecidableRel nameLe := fun a b => by
  unfold nameLe; infer_instance

instance : IsTotal ItemRow nameLe :=
  ⟨fun a b => charListLe_total a.name.toList b.name.toList⟩

instance : IsTrans ItemRow nameLe :=
  ⟨fun _ _ _ h h' => charListLe_trans h h'⟩

/-- The `WHERE` clause of `getItems`: `type = ?` and, when a non-empty
`categoryId` is supplied (JavaScript truthiness), `category_id = ?`
(SQL `=` never matches `NULL`). -/
def getItemsMatch (t : ItemType) (categoryId : Option String) (r : ItemRow) : Bool :=
  r.type == t &&
    (match categoryId with
     | some c => if c == "" then true else r.category_id == some c
     | none => true)

/-- The `LIMIT` / `OFFSET` handling shared by `getItems` and `searchItems`: the
source adds `LIMIT` only when `limit !== undefined && limit > 0`, and `OFFSET`
only when additionally `offset !== undefined && offset > 0`. -/
def applyPagination (limit offset : Option Nat) (rows : List ItemRow) :
    List ItemRow :=
  match limit with
  | some l =>
    if l > 0 then
      match offset with
      | some o => if o > 0 then (rows.drop o).take l else rows.take l
      | none => rows.take l
    else rows
  | none => rows

/-- Function `getItems` from cache.server.ts: filter by type / optional category,
`ORDER BY name`, optional `LIMIT`/`OFFSET`, project to the API shape. -/
def getItems (t : ItemType) (categoryId : Option String)
    (limit offset : Option Nat) (store : List ItemRow) : List CachedItem :=
  ((applyPagination limit offset
      (List.insertionSort nameLe (store.filter (getItemsMatch t categoryId)))).map
    rowToItem)

/-- Function `getItemCount` from cache.server.ts with a `type` argument:
`SELECT COUNT(*) FROM items WHERE type = ?`. -/
def getItemCount (t : ItemType) (store : List ItemRow) : Nat :=
  (store.filter fun r => r.type == t).length

/-- The `ORDER BY type, name` comparison used by the untyped search: the TEXT
values `'series' < 'vod'` in binary collation, so series rows sort first. -/
def typeNameLe (a b : ItemRow) : Prop :=
  a.type = b.type ∧ strLeB a.name b.name = true ∨
    a.type = ItemType.series ∧ b.type = ItemType.vod

instance : DecidableRel typeNameLe := fun a b => by
  unfold typeNameLe; infer_instance

/-- The `WHERE` clause of `searchItems` / `getSearchCount`:
`name LIKE '%' || query.trim() || '%'` plus the optional type filter. -/
def searchMatch (q : String) (t : Option ItemType) (r : ItemRow) : Bool :=
  (match t with
   | some ty => r.type == ty
   | none => true) &&
    likeMatch ('%' :: ((jsTrim q).toList ++ ['%'])) r.name.toList

/-- Function `searchItems` from cache.server.ts: an empty or whitespace-only query
returns `[]` at once; otherwise case-insensitive `LIKE` on `name`, ordered by
`name` (typed search) or `(type, name)` (untyped), with optional pagination. -/
def searchItems (q : String) (t : Option ItemType)
    (limit offset : Option Nat) (store : List ItemRow) : List CachedItem :=
  if q == "" || (jsTrim q).length == 0 then []
  else
    let matched := store.filter (searchMatch q t)
    let sorted :=
      match t with
      | some _ => List.insertionSort nameLe matched
      | none => List.insertionSort typeNameLe matched
    (applyPagination limit offset sorted).map rowToItem

/-- Function `getSearchCount` from cache.server.ts. -/
def getSearchCount (q : String) (t : Option ItemType) (store : List ItemRow) : Nat :=
  if q == "" || (jsTrim q).length == 0 then 0
  else (store.filter (searchMatch q t)).length

-- ===========================================================================
-- `api.items` route loader (series.tsx, list branch)
-- ===========================================================================

/-- The `pagination` object of the `api.items` response. -/
structure PaginationInfo where
  page : Nat
  limit : Nat
  totalPages : Nat
  hasNextPage : Bool
  hasPreviousPage : Bool
  deriving Repr, DecidableEq

/-- The list-branch response body of the `api.items` loader. -/
structure ItemsResponse where
  items : List CachedItem
  count : Nat
  totalCount : Nat
  categoryId : Option String
  pagination : PaginationInfo
  deriving Repr, DecidableEq

/-- The `api.items` loader (list branch) from series.tsx: validates `limit`
and `page`, computes `offset = (page - 1) * limit` for pages past the first,
reads `totalCount = getItemCount(type)` and the page of items, and derives
`totalPages = Math.ceil(totalCount / limit)` (1 when unpaginated). -/
def apiItemsLoader (t : ItemType) (categoryId : Option String)
    (limit : Option Nat) (page : Nat) (store : List ItemRow) :
    Except String ItemsResponse :=
  match limit with
  | some l =>
    if l < 1 then
      Except.error "Invalid limit parameter. Must be a positive number."
    else if page < 1 then
      Except.error "Invalid page parameter. Must be a positive number."
    else
      let offset : Option Nat := if page > 1 then some ((page - 1) * l) else none
      let totalCount := getItemCount t store
      let items := getItems t categoryId (some l) offset store
      let totalPages := (totalCount + l - 1) / l
      Except.ok
        { items := items, count := items.length, totalCount := totalCount
          categoryId := categoryId
          pagination :=
            { page := page, limit := l, totalPages := totalPages
              hasNextPage := page < totalPages, hasPreviousPage := page > 1 } }
  | none =>
    if page < 1 then
      Except.error "Invalid page parameter. Must be a positive number."
    else
      let totalCount := getItemCount t store
      let items := getItems t categoryId none none store
      Except.ok
        { items := items, count := items.length, totalCount := totalCount
          categoryId := categoryId
          pagination :=
            { page := page, limit := totalCount, totalPages := 1
              hasNextPage := false, hasPreviousPage := false } }

/-- Items of a loader result (`[]` on the error branch). -/
def respItems (r : Except String ItemsResponse) : List CachedItem :=
  match r with
  | Except.ok resp => resp.items
  | Except.error _ => []

/-- Total count of a loader result (`0` on the error branch). -/
def respTotalCount (r : Except String ItemsResponse) : Nat :=
  match r with
  | Except.ok resp => resp.totalCount
  | Except.error _ => 0

/-- Total pages of a loader result (`0` on the error branch). -/
def respTotalPages (r : Except String ItemsResponse) : Nat :=
  match r with
  | Except.ok resp => resp.pagination.totalPages
  | Except.error _ => 0

-- ===========================================================================
-- Items store variant of `app/lib/cache.ts` (no `stream_id` column) and the
-- sync handler built on it (`handlers/xtream/sync.handler.ts`)
-- ===========================================================================

namespace CacheTs

/-- The `CachedItem` shape of cache.ts (no `stream_id`). -/
structure Item where
  id : String
  type : ItemType
  name : String
  poster_url : Option String
  category_id : Option String
  deriving Repr, DecidableEq

/-- A stored row of the cache.ts `items` table. -/
structure Row where
  id : String
  type : ItemType
  name : String
  poster_url : Option String
  category_id : Option String
  updated_at : Nat
  deriving Repr, DecidableEq

/-- Primary key of a row. -/
def key (r : Row) : String × ItemType :=
  (r.id, r.type)

/-- The row written by `storeItems` for one input item. -/
def toRow (it : Item) (now : Nat) : Row :=
  { id := it.id, type := it.type, name := it.name
    poster_url := jsOrNull it.poster_url, category_id := jsOrNull it.category_id
    updated_at := now }

/-- Statement `INSERT OR REPLACE INTO items ...` for one row. -/
def upsert (store : List Row) (r : Row) : List Row :=
  if store.any (fun x => key x = key r) then
    store.map fun x => if key x = key r then r else x
  else
    store ++ [r]

/-- Function `storeItems` from cache.ts. -/
def storeItems (items : List Item) (now : Nat) (store : List Row) : List Row :=
  if items.isEmpty then store
  else items.foldl (fun s it => upsert s (toRow it now)) store

/-- Function `clearItems` from cache.ts: `DELETE FROM items WHERE type = ?`. -/
def clearItems (t : ItemType) (store : List Row) : List Row :=
  store.filter fun r => !(r.type == t)

end CacheTs

/-- One fetched VOD-stream payload entry, keeping only the fields the sync
handler reads; `none` models a missing (`undefined`) field, and for
`stream_id` the value `some 0` is falsy in JavaScript like `undefined`. -/
structure VodStreamEntry where
  stream_id : Option Nat
  name : Option String
  stream_icon : Option String
  category_id : Option String
  deriving Repr, DecidableEq

/-- One fetched Series payload entry (fields read by the sync handler). -/
structure SeriesEntry where
  series_id : Option Nat
  name : Option String
  cover : Option String
  category_id : Option String
  deriving Repr, DecidableEq

/-- JavaScript truthiness of an optional number (0 and `undefined` are falsy). -/
def truthyNat (o : Option Nat) : Bool :=
  match o with
  | some n => !(n == 0)
  | none => false

/-- JavaScript truthiness of an optional string (`""` and `undefined` are falsy). -/
def truthyStr (o : Option String) : Bool :=
  match o with
  | some s => !(s == "")
  | none => false

/-- The shape-validation filter `stream.stream_id && stream.name`. -/
def validVod (s : VodStreamEntry) : Bool :=
  truthyNat s.stream_id && truthyStr s.name

/-- The shape-validation filter `series.series_id && series.name`. -/
def validSeries (s : SeriesEntry) : Bool :=
  truthyNat s.series_id && truthyStr s.name

/-- Projection of a VOD stream entry to a cache.ts item, as in the sync
handler (only ever applied to entries passing `validVod`, so the `getD`
defaults are never observed). -/
def projVod (s : VodStreamEntry) : CacheTs.Item :=
  { id := toString (s.stream_id.getD 0), type := ItemType.vod
    name := s.name.getD ""
    poster_url := if truthyStr s.stream_icon then s.stream_icon else none
    category_id := if truthyStr s.category_id then s.category_id else none }

/-- Projection of a Series entry to a cache.ts item, as in the sync handler. -/
def projSeries (s : SeriesEntry) : CacheTs.Item :=
  { id := toString (s.series_id.getD 0), type := ItemType.series
    name := s.name.getD ""
    poster_url := if truthyStr s.cover then s.cover else none
    category_id := if truthyStr s.category_id then s.category_id else none }

/-- Per-type result record of `syncAllContentHandler`. -/
structure TypeSyncResult where
  fetched : Nat
  stored : Nat
  errors : List String
  deriving Repr, DecidableEq

/-- Return value of `syncAllContentHandler`. -/
structure SyncResult where
  success : Bool
  message : String
  vod : TypeSyncResult
  series : TypeSyncResult
  deriving Repr, DecidableEq

/-- One content-type block of `syncAllContentHandler`: on a successful fetch
record `fetched`; when at least one entry passes validation, clear all rows of
the type and batch-store the projections, recording `stored`; on a failed
fetch record the error message.  Returns the per-type result and the updated
items table. -/
def syncTypeBlock (fetch : Except String (List CacheTs.Item)) (t : ItemType)
    (fetchedCount : Nat) (now : Nat) (store : List CacheTs.Row) :
    TypeSyncResult × List CacheTs.Row :=
  match fetch with
  | Except.error e => ({ fetched := 0, stored := 0, errors := [e] }, store)
  | Except.ok items =>
    if items.length > 0 then
      ({ fetched := fetchedCount, stored := items.length, errors := [] },
        CacheTs.storeItems items now (CacheTs.clearItems t store))
    else
      ({ fetched := fetchedCount, stored := 0, errors := [] }, store)

/-- Function `syncAllContentHandler` from sync.handler.ts, with the two upstream
fetches passed in as `Except` values (a thrown fetch error carries its
message).  The VOD block runs first, then the Series block on the updated
table; `success` is true when either type stored at least one item. -/
def syncAllContentHandler (vodRes : Except String (List VodStreamEntry))
    (seriesRes : Except String (List SeriesEntry)) (now : Nat)
    (store : List CacheTs.Row) : SyncResult × List CacheTs.Row :=
  let vodStep :=
    syncTypeBlock (vodRes.map fun l => (l.filter validVod).map projVod)
      ItemType.vod (match vodRes with | Except.ok l => l.length | _ => 0) now store
  let seriesStep :=
    syncTypeBlock (seriesRes.map fun l => (l.filter validSeries).map projSeries)
      ItemType.series (match seriesRes with | Except.ok l => l.length | _ => 0) now
      vodStep.2
  let success := vodStep.1.stored > 0 || seriesStep.1.stored > 0
  ({ success := success
     message :=
       if success then
         "Synced " ++ toString vodStep.1.stored ++ " VOD streams and " ++
           toString seriesStep.1.stored ++ " series to database"
       else "No content was synced"
     vod := vodStep.1, series := seriesStep.1 }, seriesStep.2)

-- ===========================================================================
-- Concrete fixtures for witnesses and counterexamples
-- ===========================================================================

/-- A cache row expiring at time 5. -/
def entryK : CacheEntry :=
  { key := "k", value := "v", expiresAt := 5, createdAt := 0, hitCount := 3
    lastAccessed := none }

/-- A cache row whose key contains `vod` only in upper case. -/
def entryVOD : CacheEntry :=
  { key := "xVODy", value := "v", expiresAt := 99, createdAt := 0, hitCount := 0
    lastAccessed := none }

/-- A cache row whose key does not mention vod at all. -/
def entryOther : CacheEntry :=
  { key := "series_list", value := "w", expiresAt := 99, createdAt := 0
    hitCount := 0, lastAccessed := none }

/-- A VOD item row in category 10. -/
def rowA : ItemRow :=
  { id := "1", stream_id := "1", type := ItemType.vod, name := "A"
    poster_url := none, category_id := some "10", updated_at := 0 }

/-- A VOD item row in category 20. -/
def rowB : ItemRow :=
  { id := "2", stream_id := "2", type := ItemType.vod, name := "B"
    poster_url := none, category_id := some "20", updated_at := 0 }

/-- A third VOD item row, used by pagination witnesses. -/
def rowC : ItemRow :=
  { id := "3", stream_id := "3", type := ItemType.vod, name := "C"
    poster_url := none, category_id := some "10", updated_at := 0 }

/-- A well-formed fetched VOD entry. -/
def vodGood : VodStreamEntry :=
  { stream_id := some 7, name := some "Movie", stream_icon := none
    category_id := none }

/-- A fetched VOD entry lacking a name (fails shape validation). -/
def vodNoName : VodStreamEntry :=
  { stream_id := some 8, name := none, stream_icon := none, category_id := none }

/-- The spec scenario payload: 50 fetched VOD entries, 2 of them nameless. -/
def fetchedFifty : List VodStreamEntry :=
  List.replicate 48 vodGood ++ [vodNoName, vodNoName]

/-- A pre-existing cache.ts VOD row, for the sync stale-row counterexample. -/
def oldVodRow : CacheTs.Row :=
  { id := "9", type := ItemType.vod, name := "Old", poster_url := none
    category_id := none, updated_at := 1 }

/-- A batch item for the upsert witnesses. -/
def itemU1 : CachedItem :=
  { id := "1", stream_id := "1", type := ItemType.vod, name := "First"
    poster_url := some "p1", category_id := some "10" }

/-- A second batch item with the same `(id, type)` key as `itemU1`. -/
def itemU2 : CachedItem :=
  { id := "1", stream_id := "1", type := ItemType.vod, name := "Second"
    poster_url := some "p2", category_id := some "20" }

-- ===========================================================================
-- Helper lemmas
-- ===========================================================================

theorem likeMatch_pct_nil (t : List Char) : likeMatch ['%'] t = true := by
  induction t with
  | nil => rfl
  | cons h tl ih =>
    show suffixAny (likeMatch []) (h :: tl) = true
    simp only [suffixAny]
    have : suffixAny (likeMatch []) tl = true := ih
    rw [this]
    simp

theorem likeMatch_append_pct {p : List Char} (hp : noWildcard p = true)
    (t : List Char) : likeMatch (p ++ ['%']) t = isPrefixCI p t := by
  induction p generalizing t with
  | nil => simpa [isPrefixCI] using likeMatch_pct_nil t
  | cons c p' ih =>
    simp only [noWildcard, List.all_cons, Bool.and_eq_true, Bool.not_eq_true'] at hp
    obtain ⟨⟨h1, h2⟩, h3⟩ := hp
    have hcp : ¬ c = '%' := by simpa using h1
    have hcu : ¬ c = '_' := by simpa using h2
    have hp' : noWildcard p' = true := h3
    cases t with
    | nil => simp [likeMatch, isPrefixCI, hcp]
    | cons d t' =>
      simp only [List.cons_append, likeMatch, if_neg hcp, if_neg hcu, isPrefixCI]
      congr 1
      show likeMatch (p' ++ ['%']) t' = isPrefixCI p' t'
      exact ih hp' t'

theorem likeMatch_pct_wrap {p : List Char} (hp : noWildcard p = true)
    (s : List Char) : likeMatch ('%' :: (p ++ ['%'])) s = containsCI p s := by
  induction s with
  | nil =>
    show suffixAny (likeMatch (p ++ ['%'])) [] = containsCI p []
    simp only [suffixAny, containsCI]
    exact likeMatch_append_pct hp []
  | cons h t ih =>
    show suffixAny (likeMatch (p ++ ['%'])) (h :: t) = containsCI p (h :: t)
    simp only [suffixAny, containsCI]
    rw [likeMatch_append_pct hp (h :: t)]
    have ih' : suffixAny (likeMatch (p ++ ['%'])) t = containsCI p t := ih
    rw [ih']

theorem findCacheRow_filter_ne (l : List CacheEntry) (k : String) :
    findCacheRow (l.filter fun e => !(e.key == k)) k = none := by
  unfold findCacheRow
  apply List.find?_eq_none.mpr
  intro x hx
  have hx2 := (List.mem_filter.mp hx).2
  simpa using hx2

theorem findCacheRow_map_touch (l : List CacheEntry) (k : String) (now : Nat) :
    findCacheRow
        (l.map fun e =>
          if e.key == k then
            { e with hitCount := e.hitCount + 1, lastAccessed := some now }
          else e) k =
      (findCacheRow l k).map fun e =>
        { e with hitCount := e.hitCount + 1, lastAccessed := some now } := by
  induction l with
  | nil => rfl
  | cons h t ih =>
    unfold findCacheRow at ih ⊢
    by_cases hk : (h.key == k) = true
    · simp [List.find?, hk]
    · simp only [List.map_cons, if_neg hk, List.find?]
      rw [Bool.of_not_eq_true hk]
      exact ih

-- ===========================================================================
-- Claim theorems
-- ===========================================================================

/-- C3: for every cache entry and current time `now` with `now > expiresAt`,
`get` on the entry's key returns absent and removes the entry, and a second
`get` on the same key (at any later time) also returns absent. -/
theorem getCache_expired_removes (store : List CacheEntry) (k : String)
    (now now2 : Nat) (row : CacheEntry)
    (hfind : findCacheRow store k = some row) (hexp : now > row.expiresAt) :
    (getCache k now store).1 = none ∧
    findCacheRow (getCache k now store).2 k = none ∧
    (getCache k now2 (getCache k now store).2).1 = none := by
  have hstep : getCache k now store =
      (none, store.filter fun e => !(e.key == k)) := by
    unfold getCache
    rw [hfind]
    simp [hexp]
  have hgone := findCacheRow_filter_ne store k
  refine ⟨by rw [hstep], by rw [hstep]; exact hgone, ?_⟩
  rw [hstep]
  unfold getCache
  rw [hgone]

/-- C3 witness: a concrete expired entry (expiry 5, read at 6, reread at 7). -/
theorem getCache_expired_removes_witness :
    (findCacheRow [entryK] "k" = some entryK ∧ 6 > entryK.expiresAt) ∧
    (getCache "k" 6 [entryK]).1 = none ∧
    findCacheRow (getCache "k" 6 [entryK]).2 "k" = none ∧
    (getCache "k" 7 (getCache "k" 6 [entryK]).2).1 = none :=
  ⟨⟨by decide, by decide⟩,
    getCache_expired_removes [entryK] "k" 6 7 entryK (by decide) (by decide)⟩

/-- C4: any key containing one of the categories-listing markers resolves to
the long 24-hour TTL, whatever other marker substrings the key contains,
because the categories rule is checked first. -/
theorem getTTL_categories_priority (key : String)
    (h : strIncludes key "get_vod_categories" = true ∨
      strIncludes key "get_series_categories" = true) :
    getTTL key = CACHE_TTL_CATEGORIES := by
  unfold getTTL
  rcases h with h | h <;> simp [h]

/-- C4 witness: a key containing both the series-info marker and a
categories marker still gets the 24-hour TTL. -/
theorem getTTL_categories_priority_witness :
    strIncludes "p?a=get_series_categories&b=get_series_info" "get_series_categories" = true ∧
    getTTL "p?a=get_series_categories&b=get_series_info" = CACHE_TTL_CATEGORIES :=
  ⟨by decide,
    getTTL_categories_priority "p?a=get_series_categories&b=get_series_info"
      (Or.inr (by decide))⟩

/-- C5: searching with an empty or whitespace-only query returns the empty
item list and a zero total count, whatever the store contents. -/
theorem searchItems_blank_query_empty (q : String) (h : jsTrim q = "")
    (t : Option ItemType) (limit offset : Option Nat) (store : List ItemRow) :
    searchItems q t limit offset store = [] ∧ getSearchCount q t store = 0 := by
  have hlen : (jsTrim q).length = 0 := by rw [h]; rfl
  constructor
  · unfold searchItems
    simp [hlen]
  · unfold getSearchCount
    simp [hlen]

/-- C5 witness: the whitespace-only query on a non-empty store. -/
theorem searchItems_blank_query_empty_witness :
    jsTrim "   " = "" ∧
    searchItems "   " none none none [rowA, rowB] = [] ∧
    getSearchCount "   " none [rowA, rowB] = 0 :=
  ⟨by decide,
    searchItems_blank_query_empty "   " (by decide) none none none [rowA, rowB]⟩

/-- C10: an entry whose `expiresAt` equals the current time is still live —
`get` returns its value and bumps `hitCount`, and the expired-entry sweep
(which deletes only rows with `expiresAt < now`) keeps it. -/
theorem getCache_boundary_live (store : List CacheEntry) (k : String)
    (now : Nat) (row : CacheEntry)
    (hfind : findCacheRow store k = some row) (hexp : row.expiresAt = now) :
    (getCache k now store).1 = some row.value ∧
    findCacheRow (getCache k now store).2 k =
      some { row with hitCount := row.hitCount + 1, lastAccessed := some now } ∧
    row ∈ clearExpiredCache now store := by
  have hnot : ¬ now > row.expiresAt := by omega
  have hstep : getCache k now store =
      (some row.value,
        store.map fun e =>
          if e.key == k then
            { e with hitCount := e.hitCount + 1, lastAccessed := some now }
          else e) := by
    unfold getCache
    rw [hfind]
    simp [hnot]
  refine ⟨by rw [hstep], ?_, ?_⟩
  · rw [hstep]
    rw [findCacheRow_map_touch store k now, hfind]
    rfl
  · unfold clearExpiredCache
    refine List.mem_filter.mpr ⟨?_, by simp [hexp]⟩
    exact List.mem_of_find?_eq_some hfind

/-- C10 witness: an entry read exactly at its expiry instant. -/
theorem getCache_boundary_live_witness :
    (findCacheRow [entryK] "k" = some entryK ∧ entryK.expiresAt = 5) ∧
    (getCache "k" 5 [entryK]).1 = some entryK.value ∧
    findCacheRow (getCache "k" 5 [entryK]).2 "k" =
      some { entryK with hitCount := entryK.hitCount + 1, lastAccessed := some 5 } ∧
    entryK ∈ clearExpiredCache 5 [entryK] :=
  ⟨⟨by decide, by decide⟩,
    getCache_boundary_live [entryK] "k" 5 entryK (by decide) (by decide)⟩

/-- C6 counterexample: with pattern `vod`, the entry whose key is `xVODy`
contains the pattern only in a different ASCII case, yet the invalidation
deletes it — the deletion predicate is not the case-sensitive substring
test the claim states. -/
theorem invalidateCachePattern_case_counterexample :
    containsChars "vod".toList entryVOD.key.toList = false ∧
    invalidateCachePattern "vod" [entryVOD, entryOther] = [entryOther] ∧
    invalidateCachePattern "vod" [entryVOD, entryOther] ≠
      [entryVOD, entryOther].filter
        (fun e => !(containsChars "vod".toList e.key.toList)) := by
  refine ⟨by decide, by decide, by decide⟩

/-- C6 amended: for a pattern containing no `LIKE` wildcard (`%` or `_`), the
pattern-based invalidation deletes exactly those cache entries whose key
contains the pattern as an ASCII-case-insensitive substring, leaving all
other entries unchanged. -/
theorem invalidateCachePattern_ci_substring (pattern : String)
    (store : List CacheEntry) (h : noWildcard pattern.toList = true) :
    invalidateCachePattern pattern store =
      store.filter fun e => !(containsCI pattern.toList e.key.toList) := by
  unfold invalidateCachePattern
  apply List.filter_congr
  intro e _
  rw [likeMatch_pct_wrap h e.key.toList]

/-- C6 amended witness: pattern `vod` deletes the upper-case `xVODy` key and
keeps the unrelated `series_list` key. -/
theorem invalidateCachePattern_ci_substring_witness :
    noWildcard ("vod" : String).toList = true ∧
    invalidateCachePattern "vod" [entryVOD, entryOther] =
      [entryVOD, entryOther].filter
        (fun e => !(containsCI ("vod" : String).toList e.key.toList)) ∧
    invalidateCachePattern "vod" [entryVOD, entryOther] = [entryOther] :=
  ⟨by decide,
    invalidateCachePattern_ci_substring "vod" [entryVOD, entryOther] (by decide),
    by decide⟩

/-- C2 counterexample: with two stored VOD rows in categories 10 and 20, a
request for `type = vod, categoryId = 10` returns `totalCount = 2`, the count
of rows matching the type alone, while only one stored row matches both
filters. -/
theorem apiItems_totalCount_counterexample :
    respTotalCount (apiItemsLoader ItemType.vod (some "10") (some 10) 1 [rowA, rowB]) = 2 ∧
    ([rowA, rowB].filter fun r =>
        r.type == ItemType.vod && r.category_id == some "10").length = 1 ∧
    respTotalCount (apiItemsLoader ItemType.vod (some "10") (some 10) 1 [rowA, rowB]) ≠
      ([rowA, rowB].filter fun r =>
        r.type == ItemType.vod && r.category_id == some "10").length := by
  refine ⟨by decide, by decide, by decide⟩

/-- C2 amended: on the paginated path the returned `totalCount` equals the
number of stored rows matching the type filter alone (the `categoryId` filter
is not applied to the count), and `pagination.totalPages` is the ceiling of
`totalCount / limit`. -/
theorem apiItems_totalCount_type_only (t : ItemType) (categoryId : Option String)
    (l page : Nat) (store : List ItemRow) (hl : 1 ≤ l) (hp : 1 ≤ page) :
    respTotalCount (apiItemsLoader t categoryId (some l) page store) =
      (store.filter fun r => r.type == t).length ∧
    respTotalPages (apiItemsLoader t categoryId (some l) page store) =
      ((store.filter fun r => r.type == t).length + l - 1) / l := by
  have h1 : ¬ l < 1 := by omega
  have h2 : ¬ page < 1 := by omega
  unfold apiItemsLoader
  simp only [if_neg h1, if_neg h2]
  unfold respTotalCount respTotalPages getItemCount
  exact ⟨rfl, rfl⟩

/-- C2 amended witness: the category-10 request over the two-row store. -/
theorem apiItems_totalCount_type_only_witness :
    (1 ≤ 10 ∧ 1 ≤ 1) ∧
    respTotalCount (apiItemsLoader ItemType.vod (some "10") (some 10) 1 [rowA, rowB]) =
      ([rowA, rowB].filter fun r => r.type == ItemType.vod).length ∧
    respTotalPages (apiItemsLoader ItemType.vod (some "10") (some 10) 1 [rowA, rowB]) =
      (([rowA, rowB].filter fun r => r.type == ItemType.vod).length + 10 - 1) / 10 :=
  ⟨⟨by decide, by decide⟩,
    apiItems_totalCount_type_only ItemType.vod (some "10") 10 1 [rowA, rowB]
      (by decide) (by decide)⟩

theorem find?_map_self {α : Type} (g : α → α) (p : α → Bool) (l : List α)
    (hg : ∀ x, p (g x) = p x) : (l.map g).find? p = (l.find? p).map g := by
  induction l with
  | nil => rfl
  | cons h t ih =>
    simp only [List.map_cons, List.find?, hg h]
    cases hp : p h with
    | true => rfl
    | false => exact ih

theorem findItemRow_upsert (s : List ItemRow) (r : ItemRow) (k : String × ItemType) :
    findItemRow (upsertRow s r) k =
      if k = rowKey r then some r else findItemRow s k := by
  unfold upsertRow findItemRow
  by_cases hany : s.any (fun x => rowKey x = rowKey r) = true
  · rw [if_pos hany]
    have hg : ∀ x : ItemRow,
        (decide (rowKey (if rowKey x = rowKey r then r else x) = k)) =
          decide (rowKey x = k) := by
      intro x
      by_cases hx : rowKey x = rowKey r
      · rw [if_pos hx, hx]
      · rw [if_neg hx]
    rw [find?_map_self _ _ s hg]
    by_cases hk : k = rowKey r
    · rw [if_pos hk]
      cases hfind : s.find? (fun x => decide (rowKey x = k)) with
      | none =>
        exfalso
        obtain ⟨x, hxs, hxk⟩ := List.any_eq_true.mp hany
        have : ¬ (decide (rowKey x = k)) = true :=
          List.find?_eq_none.mp hfind x hxs
        apply this
        simp only [decide_eq_true_eq]
        rw [hk]
        exact of_decide_eq_true hxk
      | some x =>
        have hpx := List.find?_some hfind
        have hx : rowKey x = k := by simpa using hpx
        rw [Option.map_some']
        rw [if_pos (by rw [hx, hk])]
    · rw [if_neg hk]
      cases hfind : s.find? (fun x => decide (rowKey x = k)) with
      | none => rfl
      | some x =>
        have hpx := List.find?_some hfind
        have hx : rowKey x = k := by simpa using hpx
        rw [Option.map_some']
        rw [if_neg (by rw [hx]; exact hk)]
  · rw [if_neg hany]
    rw [List.find?_append]
    by_cases hk : k = rowKey r
    · have hnone : s.find? (fun x => decide (rowKey x = k)) = none := by
        apply List.find?_eq_none.mpr
        intro x hxs hpx
        apply hany
        apply List.any_eq_true.mpr
        exact ⟨x, hxs, by simpa [hk] using hpx⟩
      rw [hnone, if_pos hk]
      simp [List.find?, hk.symm]
    · rw [if_neg hk]
      cases hfind : s.find? (fun x => decide (rowKey x = k)) with
      | none =>
        simp only [hfind, Option.none_or]
        apply List.find?_eq_none.mpr
        intro x hx
        rw [List.mem_singleton] at hx
        subst hx
        simp only [decide_eq_true_eq]
        exact fun h => hk h.symm
      | some x => simp [hfind]

theorem upsertRow_map_rowKey_any (s : List ItemRow) (r : ItemRow)
    (hany : s.any (fun x => rowKey x = rowKey r) = true) :
    (upsertRow s r).map rowKey = s.map rowKey := by
  unfold upsertRow
  rw [if_pos hany, List.map_map]
  apply List.map_congr_left
  intro x _
  by_cases hx : rowKey x = rowKey r
  · simp [Function.comp, hx]
  · simp [Function.comp, hx]

theorem upsertRow_keys_nodup (s : List ItemRow) (r : ItemRow)
    (h : (s.map rowKey).Nodup) : ((upsertRow s r).map rowKey).Nodup := by
  by_cases hany : s.any (fun x => rowKey x = rowKey r) = true
  · rw [upsertRow_map_rowKey_any s r hany]
    exact h
  · unfold upsertRow
    rw [if_neg hany, List.map_append]
    apply List.Nodup.append h (List.nodup_singleton _)
    intro a ha hb
    rw [List.mem_singleton] at hb
    subst hb
    obtain ⟨x, hx, hxk⟩ := List.mem_map.mp ha
    apply hany
    apply List.any_eq_true.mpr
    exact ⟨x, hx, by simp [hxk]⟩

theorem foldl_upsert_find (items : List CachedItem) (now : Nat)
    (k : String × ItemType) :
    ∀ s : List ItemRow,
      findItemRow (items.foldl (fun s it => upsertRow s (toRow it now)) s) k =
        match lastWrite items k with
        | some it => some (toRow it now)
        | none => findItemRow s k := by
  induction items with
  | nil => intro s; rfl
  | cons it rest ih =>
    intro s
    rw [List.foldl_cons, ih (upsertRow s (toRow it now))]
    cases hlast : lastWrite rest k with
    | some j => simp [lastWrite, hlast]
    | none =>
      simp only [lastWrite, hlast]
      rw [findItemRow_upsert]
      have hkey : rowKey (toRow it now) = itemKey it := rfl
      rw [hkey]
      by_cases hk : itemKey it = k
      · rw [if_pos hk.symm, if_pos hk]
      · rw [if_neg (fun h => hk h.symm), if_neg hk]

theorem storeItems_find (items : List CachedItem) (now : Nat)
    (s : List ItemRow) (k : String × ItemType) :
    findItemRow (storeItems items now s) k =
      match lastWrite items k with
      | some it => some (toRow it now)
      | none => findItemRow s k := by
  unfold storeItems
  by_cases he : items.isEmpty = true
  · have hnil : items = [] := by
      cases items with
      | nil => rfl
      | cons a l => simp [List.isEmpty] at he
    subst hnil
    simp [lastWrite]
  · rw [if_neg he]
    exact foldl_upsert_find items now k s

theorem foldl_upsert_nodup (items : List CachedItem) (now : Nat) :
    ∀ s : List ItemRow, (s.map rowKey).Nodup →
      ((items.foldl (fun s it => upsertRow s (toRow it now)) s).map rowKey).Nodup := by
  induction items with
  | nil => intro s h; exact h
  | cons it rest ih =>
    intro s h
    rw [List.foldl_cons]
    exact ih _ (upsertRow_keys_nodup s (toRow it now) h)

theorem storeItems_keys_nodup (items : List CachedItem) (now : Nat)
    (s : List ItemRow) (h : (s.map rowKey).Nodup) :
    ((storeItems items now s).map rowKey).Nodup := by
  unfold storeItems
  by_cases he : items.isEmpty = true
  · rw [if_pos he]; exact h
  · rw [if_neg he]; exact foldl_upsert_nodup items now s h

theorem filter_key_length_one (s : List ItemRow) (k : String × ItemType)
    (hn : (s.map rowKey).Nodup) (hmem : ∃ r ∈ s, rowKey r = k) :
    (s.filter fun x => rowKey x = k).length = 1 := by
  induction s with
  | nil =>
    obtain ⟨r, hr, _⟩ := hmem
    simp at hr
  | cons h t ih =>
    rw [List.map_cons, List.nodup_cons] at hn
    by_cases hk : rowKey h = k
    · have hnil : (t.filter fun x => decide (rowKey x = k)) = [] := by
        apply List.filter_eq_nil_iff.mpr
        intro x hx
        simp only [decide_eq_true_eq]
        intro hxk
        exact hn.1 (List.mem_map.mpr ⟨x, hx, by rw [hxk, hk]⟩)
      simp [List.filter_cons, hk, hnil]
    · have hmem' : ∃ r ∈ t, rowKey r = k := by
        obtain ⟨r, hr, hrk⟩ := hmem
        rcases List.mem_cons.mp hr with h1 | h1
        · exact absurd (h1 ▸ hrk) hk
        · exact ⟨r, h1, hrk⟩
      simp only [List.filter_cons, decide_eq_true_eq]
      rw [if_neg hk]
      exact ih hn.2 hmem'

theorem lastWrite_key (items : List CachedItem) (k : String × ItemType)
    (it : CachedItem) (h : lastWrite items k = some it) : itemKey it = k := by
  induction items with
  | nil => simp [lastWrite] at h
  | cons j rest ih =>
    simp only [lastWrite] at h
    cases hlast : lastWrite rest k with
    | some j' =>
      rw [hlast] at h
      simp at h
      exact ih (h ▸ hlast)
    | none =>
      rw [hlast] at h
      by_cases hk : itemKey j = k
      · rw [if_pos hk] at h
        simp at h
        rw [← h]
        exact hk
      · rw [if_neg hk] at h
        exact absurd h (by simp)

theorem lastWrite_isSome (items : List CachedItem) (k : String × ItemType)
    (h : k ∈ items.map itemKey) : ∃ it, lastWrite items k = some it := by
  induction items with
  | nil => simp at h
  | cons j rest ih =>
    simp only [lastWrite]
    cases hlast : lastWrite rest k with
    | some j' => exact ⟨j', rfl⟩
    | none =>
      rw [List.map_cons, List.mem_cons] at h
      rcases h with h | h
      · exact ⟨j, by rw [if_pos h.symm]⟩
      · obtain ⟨it, hit⟩ := ih h
        rw [hit] at hlast
        exact absurd hlast (by simp)


/-- C7: running the batch upsert twice with the same item list, over any
well-keyed starting table, leaves exactly one stored row for each `(id, type)`
key appearing in the batch, and that row carries the field values of the last
write for that key — projected with the second call's timestamp. -/
theorem storeItems_twice_single_row (items : List CachedItem) (now1 now2 : Nat)
    (s : List ItemRow) (hs : (s.map rowKey).Nodup) (k : String × ItemType)
    (hk : k ∈ items.map itemKey) :
    ∃ it : CachedItem,
      lastWrite items k = some it ∧
      findItemRow (storeItems items now2 (storeItems items now1 s)) k =
        some (toRow it now2) ∧
      ((storeItems items now2 (storeItems items now1 s)).filter
          fun x => rowKey x = k).length = 1 := by
  obtain ⟨it, hit⟩ := lastWrite_isSome items k hk
  have hf : findItemRow (storeItems items now2 (storeItems items now1 s)) k =
      some (toRow it now2) := by
    rw [storeItems_find, hit]
  refine ⟨it, hit, hf, ?_⟩
  have hn2 : ((storeItems items now2 (storeItems items now1 s)).map rowKey).Nodup :=
    storeItems_keys_nodup _ _ _ (storeItems_keys_nodup _ _ _ hs)
  apply filter_key_length_one _ _ hn2
  refine ⟨toRow it now2, ?_, ?_⟩
  · exact List.mem_of_find?_eq_some hf
  · show itemKey it = k
    exact lastWrite_key items k it hit

/-- C7 witness: a two-item batch writing the same key twice, applied twice to
the empty table; the surviving row carries the second item's fields. -/
theorem storeItems_twice_single_row_witness :
    (([] : List ItemRow).map rowKey).Nodup ∧
    ("1", ItemType.vod) ∈ [itemU1, itemU2].map itemKey ∧
    (∃ it : CachedItem,
      lastWrite [itemU1, itemU2] ("1", ItemType.vod) = some it ∧
      findItemRow (storeItems [itemU1, itemU2] 2
          (storeItems [itemU1, itemU2] 1 [])) ("1", ItemType.vod) =
        some (toRow it 2) ∧
      ((storeItems [itemU1, itemU2] 2
          (storeItems [itemU1, itemU2] 1 [])).filter
          fun x => rowKey x = ("1", ItemType.vod)).length = 1) :=
  ⟨by decide, by decide,
    storeItems_twice_single_row [itemU1, itemU2] 1 2 [] (by decide)
      ("1", ItemType.vod) (by decide)⟩

/-- C8 counterexample: the spec scenario — 50 fetched VOD entries of which 2
lack a name — yields `fetched = 50`, `stored = 48` and `success = true`, but
the `errors` list stays empty: shape-validation failures are dropped
silently, not aggregated into `errors[]`. -/
theorem sync_errors_silent_counterexample :
    (syncAllContentHandler (Except.ok fetchedFifty) (Except.ok []) 0 []).1.vod.fetched = 50 ∧
    (syncAllContentHandler (Except.ok fetchedFifty) (Except.ok []) 0 []).1.vod.stored = 48 ∧
    (syncAllContentHandler (Except.ok fetchedFifty) (Except.ok []) 0 []).1.success = true ∧
    (syncAllContentHandler (Except.ok fetchedFifty) (Except.ok []) 0 []).1.vod.errors = [] := by
  refine ⟨by decide, by decide, by decide, by decide⟩

/-- C8 amended: on a successful VOD fetch the per-type result reports
`fetched` as the raw payload length and `stored` as the number of entries
passing shape validation, while `errors` stays empty — dropped entries are
not described there (`errors` only ever collects fetch exceptions) — and
`success` is true whenever at least one entry was stored. -/
theorem sync_vod_validation_silent (l : List VodStreamEntry)
    (seriesRes : Except String (List SeriesEntry)) (now : Nat)
    (store : List CacheTs.Row) :
    (syncAllContentHandler (Except.ok l) seriesRes now store).1.vod.fetched = l.length ∧
    (syncAllContentHandler (Except.ok l) seriesRes now store).1.vod.stored =
      (l.filter validVod).length ∧
    (syncAllContentHandler (Except.ok l) seriesRes now store).1.vod.errors = [] ∧
    ((l.filter validVod).length > 0 →
      (syncAllContentHandler (Except.ok l) seriesRes now store).1.success = true) := by
  unfold syncAllContentHandler syncTypeBlock
  by_cases hlen : 0 < (l.filter validVod).length
  · simp [Except.map, List.length_map, hlen]
  · have hz : (l.filter validVod).length = 0 := by omega
    simp [Except.map, List.length_map, hz]

/-- C8 amended witness: two fetched entries, one nameless — reported as
fetched 2, stored 1, no errors, success. -/
theorem sync_vod_validation_silent_witness :
    ([vodGood, vodNoName].filter validVod).length > 0 ∧
    (syncAllContentHandler (Except.ok [vodGood, vodNoName]) (Except.ok []) 0 []).1.success = true ∧
    (syncAllContentHandler (Except.ok [vodGood, vodNoName]) (Except.ok []) 0 []).1.vod.fetched =
      [vodGood, vodNoName].length ∧
    (syncAllContentHandler (Except.ok [vodGood, vodNoName]) (Except.ok []) 0 []).1.vod.stored =
      ([vodGood, vodNoName].filter validVod).length ∧
    (syncAllContentHandler (Except.ok [vodGood, vodNoName]) (Except.ok []) 0 []).1.vod.errors = [] :=
  ⟨by decide,
    (sync_vod_validation_silent [vodGood, vodNoName] (Except.ok []) 0 []).2.2.2 (by decide),
    (sync_vod_validation_silent [vodGood, vodNoName] (Except.ok []) 0 []).1,
    (sync_vod_validation_silent [vodGood, vodNoName] (Except.ok []) 0 []).2.1,
    (sync_vod_validation_silent [vodGood, vodNoName] (Except.ok []) 0 []).2.2.1⟩

theorem ts_key_type_eq {a b : CacheTs.Row} (h : CacheTs.key a = CacheTs.key b) :
    a.type = b.type :=
  congrArg Prod.snd h

theorem ts_filter_map_replace (s : List CacheTs.Row) (r : CacheTs.Row)
    (t : ItemType) (ht : r.type = t) :
    ((s.map fun x => if CacheTs.key x = CacheTs.key r then r else x).filter
        fun x => x.type == t) =
      ((s.filter fun x => x.type == t).map
        fun x => if CacheTs.key x = CacheTs.key r then r else x) := by
  induction s with
  | nil => rfl
  | cons h tl ih =>
    by_cases hk : CacheTs.key h = CacheTs.key r
    · have hty : h.type = t := by rw [ts_key_type_eq hk, ht]
      simp [List.filter_cons, hk, hty, ht, ih]
    · by_cases hty : h.type = t
      · simp [List.filter_cons, hk, hty, ih]
      · simp [List.filter_cons, hk, hty, ih]

theorem ts_filter_map_replace_ne (s : List CacheTs.Row) (r : CacheTs.Row)
    (t : ItemType) (ht : ¬ r.type = t) :
    ((s.map fun x => if CacheTs.key x = CacheTs.key r then r else x).filter
        fun x => x.type == t) =
      s.filter fun x => x.type == t := by
  induction s with
  | nil => rfl
  | cons h tl ih =>
    by_cases hk : CacheTs.key h = CacheTs.key r
    · have hty : ¬ h.type = t := by rw [ts_key_type_eq hk]; exact ht
      simp [List.filter_cons, hk, hty, ht, ih]
    · by_cases hty : h.type = t
      · simp [List.filter_cons, hk, hty, ih]
      · simp [List.filter_cons, hk, hty, ih]

theorem ts_any_key_filter (s : List CacheTs.Row) (r : CacheTs.Row)
    (t : ItemType) (ht : r.type = t) :
    ((s.filter fun x => x.type == t).any fun x => CacheTs.key x = CacheTs.key r) =
      (s.any fun x => CacheTs.key x = CacheTs.key r) := by
  induction s with
  | nil => rfl
  | cons h tl ih =>
    by_cases hk : CacheTs.key h = CacheTs.key r
    · have hty : h.type = t := by rw [ts_key_type_eq hk, ht]
      simp [List.filter_cons, List.any_cons, hk, hty, ih]
    · by_cases hty : h.type = t
      · simp [List.filter_cons, List.any_cons, hk, hty, ih]
      · simp [List.filter_cons, List.any_cons, hk, hty, ih]

theorem ts_filter_upsert_eq (s : List CacheTs.Row) (r : CacheTs.Row)
    (t : ItemType) (ht : r.type = t) :
    ((CacheTs.upsert s r).filter fun x => x.type == t) =
      CacheTs.upsert (s.filter fun x => x.type == t) r := by
  unfold CacheTs.upsert
  by_cases hany : (s.any fun x => CacheTs.key x = CacheTs.key r) = true
  · rw [if_pos hany, if_pos (by rw [ts_any_key_filter s r t ht]; exact hany)]
    exact ts_filter_map_replace s r t ht
  · rw [if_neg hany, if_neg (by rw [ts_any_key_filter s r t ht]; exact hany)]
    rw [List.filter_append]
    congr 1
    simp [List.filter_cons, ht]

theorem ts_filter_upsert_ne (s : List CacheTs.Row) (r : CacheTs.Row)
    (t : ItemType) (ht : ¬ r.type = t) :
    ((CacheTs.upsert s r).filter fun x => x.type == t) =
      s.filter fun x => x.type == t := by
  unfold CacheTs.upsert
  by_cases hany : (s.any fun x => CacheTs.key x = CacheTs.key r) = true
  · rw [if_pos hany]
    exact ts_filter_map_replace_ne s r t ht
  · rw [if_neg hany, List.filter_append]
    simp [List.filter_cons, ht]

theorem ts_foldl_filter_eq (now : Nat) (t : ItemType) :
    ∀ items : List CacheTs.Item, (∀ it ∈ items, it.type = t) →
      ∀ s : List CacheTs.Row,
        ((items.foldl (fun s it => CacheTs.upsert s (CacheTs.toRow it now)) s).filter
            fun x => x.type == t) =
          items.foldl (fun s it => CacheTs.upsert s (CacheTs.toRow it now))
            (s.filter fun x => x.type == t) := by
  intro items
  induction items with
  | nil => intro _ s; rfl
  | cons it rest ih =>
    intro hall s
    rw [List.foldl_cons, List.foldl_cons]
    rw [ih (fun x hx => hall x (List.mem_cons_of_mem it hx)) _]
    congr 1
    refine ts_filter_upsert_eq s (CacheTs.toRow it now) t ?_
    show it.type = t
    exact hall it (List.mem_cons_self it rest)

theorem ts_foldl_filter_ne (now : Nat) (t t' : ItemType) (hne : ¬ t = t') :
    ∀ items : List CacheTs.Item, (∀ it ∈ items, it.type = t) →
      ∀ s : List CacheTs.Row,
        ((items.foldl (fun s it => CacheTs.upsert s (CacheTs.toRow it now)) s).filter
            fun x => x.type == t') =
          s.filter fun x => x.type == t' := by
  intro items
  induction items with
  | nil => intro _ s; rfl
  | cons it rest ih =>
    intro hall s
    rw [List.foldl_cons]
    rw [ih (fun x hx => hall x (List.mem_cons_of_mem it hx)) _]
    refine ts_filter_upsert_ne s (CacheTs.toRow it now) t' ?_
    show ¬ it.type = t'
    rw [hall it (List.mem_cons_self it rest)]
    exact hne

theorem ts_filter_clear_self (t : ItemType) (s : List CacheTs.Row) :
    ((CacheTs.clearItems t s).filter fun x => x.type == t) = [] := by
  unfold CacheTs.clearItems
  rw [List.filter_filter]
  apply List.filter_eq_nil_iff.mpr
  intro x _
  by_cases hx : x.type = t
  · simp [hx]
  · simp [hx]

theorem ts_filter_clear_ne (t t' : ItemType) (s : List CacheTs.Row)
    (h : ¬ t' = t) :
    ((CacheTs.clearItems t s).filter fun x => x.type == t') =
      s.filter fun x => x.type == t' := by
  unfold CacheTs.clearItems
  rw [List.filter_filter]
  apply List.filter_congr
  intro x _
  by_cases hx : x.type = t'
  · simp [hx, h]
  · simp [hx]

theorem ts_storeItems_filter_eq (items : List CacheTs.Item) (now : Nat)
    (t : ItemType) (hall : ∀ it ∈ items, it.type = t) (s : List CacheTs.Row) :
    ((CacheTs.storeItems items now s).filter fun x => x.type == t) =
      CacheTs.storeItems items now (s.filter fun x => x.type == t) := by
  unfold CacheTs.storeItems
  by_cases he : items.isEmpty = true
  · rw [if_pos he, if_pos he]
  · rw [if_neg he, if_neg he]
    exact ts_foldl_filter_eq now t items hall s

theorem ts_storeItems_filter_ne (items : List CacheTs.Item) (now : Nat)
    (t t' : ItemType) (hne : ¬ t = t') (hall : ∀ it ∈ items, it.type = t)
    (s : List CacheTs.Row) :
    ((CacheTs.storeItems items now s).filter fun x => x.type == t') =
      s.filter fun x => x.type == t' := by
  unfold CacheTs.storeItems
  by_cases he : items.isEmpty = true
  · rw [if_pos he]
  · rw [if_neg he]
    exact ts_foldl_filter_ne now t t' hne items hall s

/-- C9 counterexample: a successful VOD fetch whose single entry fails shape
validation leaves the pre-existing stale VOD row in place — the table is not
cleared, so the stored rows are not the (empty) set of valid projections. -/
theorem sync_stale_rows_counterexample :
    ([vodNoName].filter validVod).map projVod = [] ∧
    ((syncAllContentHandler (Except.ok [vodNoName]) (Except.ok []) 0 [oldVodRow]).2.filter
        fun r => r.type == ItemType.vod) = [oldVodRow] ∧
    ((syncAllContentHandler (Except.ok [vodNoName]) (Except.ok []) 0 [oldVodRow]).2.filter
        fun r => r.type == ItemType.vod) ≠
      CacheTs.storeItems (([vodNoName].filter validVod).map projVod) 0 [] := by
  refine ⟨by decide, by decide, by decide⟩

/-- C9 amended: for a content type whose fetch succeeds with at least one
entry passing shape validation, the sync clears that type and batch-upserts
the valid projections, so the stored rows of that type afterwards are exactly
the valid projections upserted into an empty table; when no fetched entry
passes validation, the rows of that type are left untouched. -/
theorem sync_clear_then_upsert (l : List VodStreamEntry) (ls : List SeriesEntry)
    (now : Nat) (store : List CacheTs.Row) :
    ((l.filter validVod).map projVod ≠ [] →
      ((syncAllContentHandler (Except.ok l) (Except.ok ls) now store).2.filter
          fun r => r.type == ItemType.vod) =
        CacheTs.storeItems ((l.filter validVod).map projVod) now []) ∧
    ((l.filter validVod).map projVod = [] →
      ((syncAllContentHandler (Except.ok l) (Except.ok ls) now store).2.filter
          fun r => r.type == ItemType.vod) =
        store.filter fun r => r.type == ItemType.vod) ∧
    ((ls.filter validSeries).map projSeries ≠ [] →
      ((syncAllContentHandler (Except.ok l) (Except.ok ls) now store).2.filter
          fun r => r.type == ItemType.series) =
        CacheTs.storeItems ((ls.filter validSeries).map projSeries) now []) ∧
    ((ls.filter validSeries).map projSeries = [] →
      ((syncAllContentHandler (Except.ok l) (Except.ok ls) now store).2.filter
          fun r => r.type == ItemType.series) =
        store.filter fun r => r.type == ItemType.series) := by
  have hvt : ∀ it ∈ (l.filter validVod).map projVod, it.type = ItemType.vod := by
    intro it hit
    obtain ⟨x, _, hx⟩ := List.mem_map.mp hit
    rw [← hx]; rfl
  have hst : ∀ it ∈ (ls.filter validSeries).map projSeries, it.type = ItemType.series := by
    intro it hit
    obtain ⟨x, _, hx⟩ := List.mem_map.mp hit
    rw [← hx]; rfl
  have hvs : ¬ ItemType.vod = ItemType.series := by decide
  have hsv : ¬ ItemType.series = ItemType.vod := by decide
  unfold syncAllContentHandler syncTypeBlock
  simp only [Except.map]
  by_cases hv : 0 < ((l.filter validVod).map projVod).length
  · by_cases hsr : 0 < ((ls.filter validSeries).map projSeries).length
    · simp only [if_pos hv, if_pos hsr]
      refine ⟨fun _ => ?_, fun hnil => ?_, fun _ => ?_, fun hnil => ?_⟩
      · rw [ts_storeItems_filter_ne _ now ItemType.series ItemType.vod hsv hst,
          ts_filter_clear_ne ItemType.series ItemType.vod _ hvs,
          ts_storeItems_filter_eq _ now ItemType.vod hvt,
          ts_filter_clear_self]
      · exfalso; rw [hnil] at hv; simp at hv
      · rw [ts_storeItems_filter_eq _ now ItemType.series hst, ts_filter_clear_self]
      · exfalso; rw [hnil] at hsr; simp at hsr
    · simp only [if_pos hv, if_neg hsr]
      refine ⟨fun _ => ?_, fun hnil => ?_, fun hne => ?_, fun _ => ?_⟩
      · rw [ts_storeItems_filter_eq _ now ItemType.vod hvt, ts_filter_clear_self]
      · exfalso; rw [hnil] at hv; simp at hv
      · exact absurd (List.length_pos.mpr hne) hsr
      · rw [ts_storeItems_filter_ne _ now ItemType.vod ItemType.series hvs hvt,
          ts_filter_clear_ne ItemType.vod ItemType.series _ hsv]
  · by_cases hsr : 0 < ((ls.filter validSeries).map projSeries).length
    · simp only [if_neg hv, if_pos hsr]
      refine ⟨fun hne => ?_, fun _ => ?_, fun _ => ?_, fun hnil => ?_⟩
      · exact absurd (List.length_pos.mpr hne) hv
      · rw [ts_storeItems_filter_ne _ now ItemType.series ItemType.vod hsv hst,
          ts_filter_clear_ne ItemType.series ItemType.vod _ hvs]
      · rw [ts_storeItems_filter_eq _ now ItemType.series hst, ts_filter_clear_self]
      · exfalso; rw [hnil] at hsr; simp at hsr
    · simp only [if_neg hv, if_neg hsr]
      refine ⟨fun hne => ?_, fun _ => ?_, fun hne => ?_, fun _ => ?_⟩
      · exact absurd (List.length_pos.mpr hne) hv
      · trivial
      · exact absurd (List.length_pos.mpr hne) hsr
      · trivial

/-- C9 amended witness: one valid VOD entry replaces the stale VOD row, and
the untouched (empty) series fetch leaves series rows unchanged. -/
theorem sync_clear_then_upsert_witness :
    ([vodGood].filter validVod).map projVod ≠ [] ∧
    ((syncAllContentHandler (Except.ok [vodGood]) (Except.ok []) 5 [oldVodRow]).2.filter
        fun r => r.type == ItemType.vod) =
      CacheTs.storeItems (([vodGood].filter validVod).map projVod) 5 [] ∧
    (([] : List SeriesEntry).filter validSeries).map projSeries = [] ∧
    ((syncAllContentHandler (Except.ok [vodGood]) (Except.ok []) 5 [oldVodRow]).2.filter
        fun r => r.type == ItemType.series) =
      [oldVodRow].filter fun r => r.type == ItemType.series :=
  ⟨by decide,
    (sync_clear_then_upsert [vodGood] [] 5 [oldVodRow]).1 (by decide),
    by decide,
    (sync_clear_then_upsert [vodGood] [] 5 [oldVodRow]).2.2.2 (by decide)⟩

theorem getItemsMatch_none (t : ItemType) (r : ItemRow) :
    getItemsMatch t none r = (r.type == t) := by
  simp [getItemsMatch]

theorem flatten_chunks {α : Type} (L : Nat) :
    ∀ (n : Nat) (l : List α), l.length ≤ n * L →
      ((List.range n).map fun i => (l.drop (i * L)).take L).flatten = l := by
  intro n
  induction n with
  | zero =>
    intro l h
    simp only [Nat.zero_mul, Nat.le_zero] at h
    have hnil : l = [] := List.eq_nil_of_length_eq_zero h
    subst hnil
    rfl
  | succ m ih =>
    intro l h
    rw [List.range_succ_eq_map, List.map_cons, List.map_map, List.flatten_cons]
    have h0 : (l.drop (0 * L)).take L = l.take L := by simp
    rw [h0]
    have hmap : (List.range m).map ((fun i => (l.drop (i * L)).take L) ∘ Nat.succ) =
        (List.range m).map fun i => ((l.drop L).drop (i * L)).take L := by
      apply List.map_congr_left
      intro i _
      show (l.drop (Nat.succ i * L)).take L = ((l.drop L).drop (i * L)).take L
      rw [List.drop_drop]
      rw [Nat.succ_mul, Nat.add_comm]
    rw [hmap]
    rw [ih (l.drop L) (by
      rw [List.length_drop]
      rw [Nat.succ_mul] at h
      omega)]
    exact List.take_append_drop L l

theorem getItems_page_chunk (t : ItemType) (L : Nat) (hL : 1 ≤ L) (i : Nat)
    (store : List ItemRow) :
    getItems t none (some L) (if i + 1 > 1 then some (i * L) else none) store =
      (((List.insertionSort nameLe
          (store.filter fun r => r.type == t)).drop (i * L)).take L).map
        rowToItem := by
  unfold getItems applyPagination
  have hfilter : store.filter (getItemsMatch t none) =
      store.filter fun r => r.type == t :=
    List.filter_congr fun r _ => getItemsMatch_none t r
  rw [hfilter]
  have hLpos : L > 0 := hL
  by_cases hi : i = 0
  · subst hi
    simp [hLpos, List.map_take]
  · have hii : i + 1 > 1 := by omega
    have hio : i * L > 0 := Nat.mul_pos (Nat.pos_of_ne_zero hi) hL
    simp [hii, hio, hLpos]

theorem respItems_loader (t : ItemType) (categoryId : Option String)
    (L page : Nat) (hL : 1 ≤ L) (hp : 1 ≤ page) (store : List ItemRow) :
    respItems (apiItemsLoader t categoryId (some L) page store) =
      getItems t categoryId (some L)
        (if page > 1 then some ((page - 1) * L) else none) store := by
  have h1 : ¬ L < 1 := by omega
  have h2 : ¬ page < 1 := by omega
  unfold apiItemsLoader
  simp only [if_neg h1, if_neg h2]
  rfl

/-- C1: for any store, item type and page size `L >= 1`, concatenating the
loader's item pages `1 .. ceil(N/L)` (where `N` counts the stored rows of the
type) yields a permutation of the stored rows of that type — no duplicates,
no omissions — in name-ascending order. -/
theorem apiItems_pagination_roundtrip (t : ItemType) (L : Nat) (hL : 1 ≤ L)
    (store : List ItemRow) :
    List.Perm
      ((List.range (((store.filter fun r => r.type == t).length + L - 1) / L)).map fun i =>
        respItems (apiItemsLoader t none (some L) (i + 1) store)).flatten
      ((store.filter fun r => r.type == t).map rowToItem) ∧
    List.Sorted (fun a b : CachedItem => strLeB a.name b.name = true)
      ((List.range (((store.filter fun r => r.type == t).length + L - 1) / L)).map fun i =>
        respItems (apiItemsLoader t none (some L) (i + 1) store)).flatten := by
  have hmapeq : ∀ i : Nat,
      respItems (apiItemsLoader t none (some L) (i + 1) store) =
        (((List.insertionSort nameLe
            (store.filter fun r => r.type == t)).drop (i * L)).take L).map
          rowToItem := by
    intro i
    rw [respItems_loader t none L (i + 1) hL (by omega) store]
    have hoff : (if i + 1 > 1 then some ((i + 1 - 1) * L) else none) =
        (if i + 1 > 1 then some (i * L) else none) := by
      simp
    rw [hoff]
    exact getItems_page_chunk t L hL i store
  have hflatten :
      ((List.range (((store.filter fun r => r.type == t).length + L - 1) / L)).map fun i =>
        respItems (apiItemsLoader t none (some L) (i + 1) store)).flatten =
      (List.insertionSort nameLe (store.filter fun r => r.type == t)).map
        rowToItem := by
    rw [List.map_congr_left fun i _ => hmapeq i]
    rw [show ((List.range (((store.filter fun r => r.type == t).length + L - 1) / L)).map fun i =>
          (((List.insertionSort nameLe
              (store.filter fun r => r.type == t)).drop (i * L)).take L).map rowToItem) =
        (List.range (((store.filter fun r => r.type == t).length + L - 1) / L)).map
          (List.map rowToItem ∘ fun i =>
            ((List.insertionSort nameLe
              (store.filter fun r => r.type == t)).drop (i * L)).take L) from rfl]
    rw [← List.map_map, ← List.map_flatten]
    congr 1
    apply flatten_chunks L
    have hlen : (List.insertionSort nameLe
        (store.filter fun r => r.type == t)).length =
        (store.filter fun r => r.type == t).length :=
      (List.perm_insertionSort nameLe _).length_eq
    rw [hlen]
    have h1 := Nat.div_add_mod ((store.filter fun r => r.type == t).length + L - 1) L
    have h2 := Nat.mod_lt ((store.filter fun r => r.type == t).length + L - 1)
      (show 0 < L by omega)
    have h3 : (((store.filter fun r => r.type == t).length + L - 1) / L) * L =
        L * (((store.filter fun r => r.type == t).length + L - 1) / L) :=
      Nat.mul_comm _ _
    omega
  constructor
  · rw [hflatten]
    exact (List.perm_insertionSort nameLe _).map rowToItem
  · rw [hflatten]
    apply List.pairwise_map.mpr
    exact List.sorted_insertionSort nameLe (store.filter fun r => r.type == t)

/-- C1 witness: three VOD rows stored unsorted, read back with page size 2 as
two pages. -/
theorem apiItems_pagination_roundtrip_witness :
    1 ≤ 2 ∧
    List.Perm
      ((List.range ((([rowB, rowA, rowC].filter fun r => r.type == ItemType.vod).length + 2 - 1) / 2)).map fun i =>
        respItems (apiItemsLoader ItemType.vod none (some 2) (i + 1) [rowB, rowA, rowC])).flatten
      (([rowB, rowA, rowC].filter fun r => r.type == ItemType.vod).map rowToItem) ∧
    List.Sorted (fun a b : CachedItem => strLeB a.name b.name = true)
      ((List.range ((([rowB, rowA, rowC].filter fun r => r.type == ItemType.vod).length + 2 - 1) / 2)).map fun i =>
        respItems (apiItemsLoader ItemType.vod none (some 2) (i + 1) [rowB, rowA, rowC])).flatten :=
  ⟨by decide,
    (apiItems_pagination_roundtrip ItemType.vod 2 (by decide) [rowB, rowA, rowC]).1,
    (apiItems_pagination_roundtrip ItemType.vod 2 (by decide) [rowB, rowA, rowC]).2⟩
